import Mathlib

/-!
Verification of the FakeNilc classification harness (classify.py).

The source is shallowly embedded below: pandas tables become an explicit
structure, the random shuffle of sklearn becomes an explicit permutation
parameter, numpy linspace slice computation becomes exact rational
arithmetic followed by truncation (astype int on nonnegative floats is
floor), and fallible operations return Except / Option values mirroring
the Python exceptions (KeyError on a missing column, ValueError on too
few samples for the fold count, unpacking failure on a confusion matrix
that is not 2 by 2).
-/

set_option autoImplicit false

namespace FakeNilc

/-- Error kinds surfaced by the pipeline: a missing label column
(pandas KeyError) and a slice too small for the fold count
(sklearn ValueError in cross_val_predict). -/
inductive Err where
  | missingColumn
  | insufficientData
  deriving DecidableEq

/-- Slice boundaries of predictAndEvaluate for a positive step count lc:
the code computes s = (np.linspace(0,1,lc+1) * len(y)).astype(np.int)[1:],
whose i-th retained entry (i = 1..lc) is the truncation of (i/lc)*N;
linspace pins the endpoint to 1 exactly, and with exact arithmetic the
truncation is the floor (i*N)/lc, which at i = lc is exactly N. -/
def sliceBoundsNat (N lc : ℕ) : List ℕ :=
  (List.range lc).map (fun i => ((i + 1) * N) / lc)

/-- Slice boundaries for the raw integer step count flag: for lc = -1 the
call np.linspace(0,1,0) yields an empty array, and for lc = 0 the slice
[1:] of the one-point array [0.0] is also empty, so no boundary at all is
produced when lc < 1. -/
def sliceBounds (N : ℕ) (lc : ℤ) : List ℕ :=
  if lc < 1 then [] else sliceBoundsNat N lc.toNat

/-- Modelled from the spec: the claimed slice length, the ceiling of
i*N/lc, written with natural number arithmetic. -/
def specCeilSliceLen (N lc i : ℕ) : ℕ :=
  (i * N + lc - 1) / lc

/-- Stratified-split deficiency check of sklearn: cross_val_predict with
an integer cv and a classifier uses StratifiedKFold, whose fold
construction raises a ValueError exactly when the number of splits
exceeds the member count of every class occurring in the labels. -/
def stratifiedDeficient (y : List String) (cv : ℕ) : Bool :=
  y.dedup.all (fun c => y.count c < cv)

/-- cross_val_predict with cv folds on a slice: sklearn raises a
ValueError when the number of samples is below the number of splits
(the base splitter check), and StratifiedKFold also raises a ValueError
when every class has fewer members than the number of splits; otherwise
it produces one predicted label per sample, supplied here by the
abstract classifier capability given as the argument model. -/
def crossValPredict (model : List (List String) → List String → List String)
    (X : List (List String)) (y : List String) (cv : ℕ) :
    Except Err (List String) :=
  if y.length < cv then .error .insufficientData
  else if stratifiedDeficient y cv then .error .insufficientData
  else .ok (model X y)

/-- predictAndEvaluate: one cross-validated prediction per slice boundary,
each on the prefixes X[:val] and y[:val], with the fold count fixed to 5
in the source (cv=5). -/
def predictAndEvaluate (model : List (List String) → List String → List String)
    (X : List (List String)) (y : List String) (lc : ℤ) :
    Except Err (List (List String)) :=
  (sliceBounds y.length lc).mapM (fun b => crossValPredict model (X.take b) (y.take b) 5)

/-- Loaded table: column names, rows of cells, and the row index used as
record identifiers. -/
structure Table where
  colNames : List String
  rows : List (List String)
  index : List String

/-- Position of a named column, as pandas column lookup. -/
def colIdx (t : Table) (c : String) : Option ℕ :=
  t.colNames.findIdx? (fun x => x == c)

/-- Row with the j-th cell removed, as df.drop of one column. -/
def dropCol (j : ℕ) (row : List String) : List String :=
  row.take j ++ row.drop (j + 1)

/-- Application of one index permutation to a sequence, as the sklearn
shuffle applied with a drawn permutation. -/
def applyPerm {α : Type} (π : List ℕ) (xs : List α) (d : α) : List α :=
  π.map (fun i => xs.getD i d)

/-- getDatasetValues: extract the Tag column as labels, drop it to get the
feature matrix, take the row index as ids, and shuffle all three with the
single drawn permutation π. A missing Tag column is the KeyError of the
pandas lookup. -/
def getDatasetValues (t : Table) (π : List ℕ) :
    Except Err (List (List String) × List String × List String) :=
  match colIdx t "Tag" with
  | none => .error .missingColumn
  | some j =>
      .ok (applyPerm π (t.rows.map (dropCol j)) [],
           applyPerm π (t.rows.map (fun r => r.getD j "")) "",
           applyPerm π t.index "")

/-- Per-dataset pipeline of main: prepare the dataset, then run the
evaluator; an error in preparation aborts before any prediction. -/
def runDataset (t : Table) (π : List ℕ)
    (model : List (List String) → List String → List String) (lc : ℤ) :
    Except Err (List (List String)) := do
  let (X, y, _) ← getDatasetValues t π
  predictAndEvaluate model X y lc

/-- accuracy_score: fraction of positions where the prediction equals the
true label; sklearn rejects sequences of different lengths. -/
def accuracyScore (t p : List String) : Option ℚ :=
  if t.length = p.length then
    some (((t.zip p).countP (fun x => x.1 == x.2) : ℚ) / (t.length : ℚ))
  else none

/-- Learning-curve scores of printResults: the i-th score compares the
prefix real[:s[i]] with predicts[i], where s recomputes the slice
boundaries from len(real) and len(predicts). -/
def learningCurve (real : List String) (predicts : List (List String)) :
    List (Option ℚ) :=
  List.zipWith (fun b p => accuracyScore (real.take b) p)
    (sliceBoundsNat real.length predicts.length) predicts

/-- Learning-curve section of printResults: emitted only when more than
one prediction sequence is supplied. -/
def printResultsCurve (real : List String) (predicts : List (List String)) :
    Option (List (Option ℚ)) :=
  if 1 < predicts.length then some (learningCurve real predicts) else none

/-- Lexicographic character order on strings, the order in which numpy
sorts the distinct labels. -/
def strLt (s t : String) : Bool :=
  decide (s.data < t.data)

/-- Insertion of a string into a sorted list, ordered as numpy sorts the
distinct labels. -/
def insertStr (s : String) : List String → List String
  | [] => [s]
  | x :: xs => if strLt s x then s :: x :: xs else x :: insertStr s xs

/-- Insertion sort on strings. -/
def sortStr : List String → List String
  | [] => []
  | x :: xs => insertStr x (sortStr xs)

/-- Sorted distinct labels occurring in the true and predicted sequences,
as np.unique over both, which determines the confusion matrix axes. -/
def cmLabels (real pred : List String) : List String :=
  sortStr ((real ++ pred).dedup)

/-- Entry of the confusion matrix: count of positions whose true label is
a and whose predicted label is b. -/
def cmCount (real pred : List String) (a b : String) : ℕ :=
  (real.zip pred).countP (fun x => decide (x.1 = a ∧ x.2 = b))

/-- Flattened confusion matrix in row-major order over the sorted distinct
labels, as confusion_matrix(...).ravel(); sklearn rejects sequences of
different lengths. -/
def confusionRavel (real pred : List String) : Option (List ℕ) :=
  if real.length = pred.length then
    some ((cmLabels real pred).map
      (fun a => (cmLabels real pred).map (fun b => cmCount real pred a b))).flatten
  else none

/-- Unpacking of the flattened matrix into exactly four counts, as the
tuple assignment tn, fp, fn, tp = ...ravel(); any other matrix size makes
the assignment fail. -/
def unpack4 : List ℕ → Option (ℕ × ℕ × ℕ × ℕ)
  | [a, b, c, d] => some (a, b, c, d)
  | _ => none

/-- Confusion-matrix rows printed by printResults, computed from the last
prediction sequence: the flattened matrix is unpacked as (tn, fp, fn, tp)
and the first printed row is (tp, fp) labeled a = REAL, the second is
(fn, tn) labeled b = FAKE. -/
def printResultsCM (real : List String) (predicts : List (List String)) :
    Option ((ℕ × ℕ) × (ℕ × ℕ)) :=
  (confusionRavel real (predicts.getLastD [])).bind (fun l =>
    (unpack4 l).map (fun q => ((q.2.2.2, q.2.1), (q.2.2.1, q.1))))

/-- Missed-record lines of main: for each index below len(y), when the
final prediction differs from the true label, the line
Ids[i] ++ " Classified as " ++ predicted ++ newline is kept, in index
order. -/
def missedList (Ids y finalPred : List String) : List String :=
  (List.range y.length).filterMap (fun i =>
    if finalPred.getD i "" ≠ y.getD i "" then
      some (Ids.getD i "" ++ " Classified as " ++ finalPred.getD i "" ++ "\n")
    else none)

/-- Classifier kinds reachable from the command line. -/
inductive ClassifierKind where
  | linearSVC
  | multinomialNB
  | randomForest
  | mlp
  | svc
  deriving DecidableEq

/-- Accepted values of the classifier option in prepareArgParser. -/
def classifierChoices : List String :=
  ["svc", "linearsvc", "naive_bayes", "randomforest", "all", "mlp"]

/-- Classifier dispatch of parseArguments: the if/elif chain recognizes
four specific values, and every other accepted value (all, absent, and
also svc, which has no branch) keeps the default list of the three
non-neural kinds. -/
def selectClassifiers (c : Option String) : List ClassifierKind :=
  if c = some "linearsvc" then [.linearSVC]
  else if c = some "naive_bayes" then [.multinomialNB]
  else if c = some "randomforest" then [.randomForest]
  else if c = some "mlp" then [.mlp]
  else [.linearSVC, .multinomialNB, .randomForest]

/-- Claim C1: with steps = -1 the evaluator is claimed to use a single
slice equal to the full dataset and return exactly one prediction
sequence; the code instead computes an empty linspace, so it returns an
empty list of prediction sequences (after which printResults would fail
on predicts[-1]), shown here on a concrete four-record dataset. -/
theorem predictAndEvaluate_steps_neg_one :
    predictAndEvaluate (fun _ y => y) [["a"], ["b"], ["c"], ["d"]]
      ["REAL", "FAKE", "REAL", "FAKE"] (-1) = Except.ok ([] : List (List String))
    ∧ ([] : List (List String)).length ≠ 1 := by
  constructor
  · rfl
  · decide

/-- Claim C2 counterexample: at N = 10 and lc = 3 the code produces the
boundaries [3, 6, 10], while the claimed ceiling formula gives 4 for the
first slice, so the first boundary differs; moreover at N = 3 and lc = 5
the produced boundaries are not strictly increasing. -/
theorem sliceBounds_ceil_counterexample :
    sliceBoundsNat 10 3 = [3, 6, 10]
    ∧ specCeilSliceLen 10 3 1 = 4
    ∧ (sliceBoundsNat 10 3).getD 0 0 ≠ specCeilSliceLen 10 3 1
    ∧ ¬ List.Chain' (· < ·) (sliceBoundsNat 3 5) := by
  refine ⟨by decide, by decide, by decide, ?_⟩
  have h : sliceBoundsNat 3 5 = [0, 1, 1, 2, 3] := by decide
  rw [h]
  simp [List.chain'_cons]

/-- Claim C2 (amended): for lc ≥ 1 and lc ≤ N the evaluator produces
exactly lc boundaries, the i-th slice (i = 1..lc) is the prefix of length
floor(i*N/lc), the boundaries are strictly increasing, and the last
boundary equals N. -/
theorem sliceBounds_floor_spec (N lc : ℕ) (h1 : 1 ≤ lc) (h2 : lc ≤ N) :
    (sliceBoundsNat N lc).length = lc
    ∧ (∀ i, i < lc → (sliceBoundsNat N lc).getD i 0 = ((i + 1) * N) / lc)
    ∧ List.Chain' (· < ·) (sliceBoundsNat N lc)
    ∧ (sliceBoundsNat N lc).getLast? = some N := by
  have hlen : (sliceBoundsNat N lc).length = lc := by
    simp [sliceBoundsNat]
  refine ⟨hlen, ?_, ?_, ?_⟩
  · intro i hi
    have hi' : i < (List.range lc).length := by simpa using hi
    simp [sliceBoundsNat, List.getD_eq_getElem?_getD, List.getElem?_map,
      List.getElem?_range hi]
  · have hmono : ∀ i, i + 1 < lc →
        ((i + 1) * N) / lc < ((i + 1 + 1) * N) / lc := by
      intro i _
      have hstep : (i + 1) * N + lc ≤ (i + 1 + 1) * N := by
        have : (i + 1 + 1) * N = (i + 1) * N + N := by ring
        omega
      have h3 : ((i + 1) * N + lc) / lc ≤ ((i + 1 + 1) * N) / lc :=
        Nat.div_le_div_right hstep
      have h4 : ((i + 1) * N + lc) / lc = ((i + 1) * N) / lc + 1 := by
        have hlc : 0 < lc := h1
        rw [Nat.add_div_right _ hlc]
      omega
    obtain ⟨k, rfl⟩ : ∃ k, lc = k + 1 := ⟨lc - 1, by omega⟩
    rw [sliceBoundsNat, List.chain'_map, List.chain'_range_succ]
    intro m hm
    exact hmono m (by omega)
  · have hne : sliceBoundsNat N lc ≠ [] := by
      intro h
      have := congrArg List.length h
      simp [hlen] at this
      omega
    rw [List.getLast?_eq_getElem?]
    have hlast : lc - 1 < lc := by omega
    have : (sliceBoundsNat N lc).getD (lc - 1) 0 = ((lc - 1 + 1) * N) / lc := by
      have hi' : lc - 1 < (List.range lc).length := by simpa using hlast
      simp [sliceBoundsNat, List.getD_eq_getElem?_getD, List.getElem?_map,
        List.getElem?_range hlast]
    have hfull : ((lc - 1 + 1) * N) / lc = N := by
      have : lc - 1 + 1 = lc := by omega
      rw [this, Nat.mul_div_cancel_left _ (by omega : 0 < lc)]
    rw [hlen, List.getElem?_eq_getElem (by omega : lc - 1 < (sliceBoundsNat N lc).length)]
    have := this
    rw [List.getD_eq_getElem?_getD, List.getElem?_eq_getElem
      (by omega : lc - 1 < (sliceBoundsNat N lc).length)] at this
    simp at this
    rw [this, hfull]

/-- Claim C2 witness: the amended statement evaluated at N = 10, lc = 3. -/
theorem sliceBounds_floor_spec_witness :
    (1 ≤ 3 ∧ 3 ≤ 10)
    ∧ ((sliceBoundsNat 10 3).length = 3
      ∧ (∀ i, i < 3 → (sliceBoundsNat 10 3).getD i 0 = ((i + 1) * 10) / 3)
      ∧ List.Chain' (· < ·) (sliceBoundsNat 10 3)
      ∧ (sliceBoundsNat 10 3).getLast? = some 10) :=
  ⟨⟨by decide, by decide⟩, sliceBounds_floor_spec 10 3 (by decide) (by decide)⟩

/-- Claim C9: the option value svc is accepted by the argument parser as
the name of a specific classifier kind, but the dispatch has no branch
for it, so the code evaluates the three non-neural kinds instead of one
SVC instance. -/
theorem selectClassifiers_svc :
    "svc" ∈ classifierChoices
    ∧ selectClassifiers (some "svc")
        = [ClassifierKind.linearSVC, ClassifierKind.multinomialNB,
           ClassifierKind.randomForest]
    ∧ selectClassifiers (some "svc") ≠ [ClassifierKind.svc] := by
  refine ⟨by decide, by decide, by decide⟩

/-- Reading every position of a list through getD reproduces the list. -/
theorem range_map_getD {α : Type} (xs : List α) (d : α) :
    (List.range xs.length).map (fun i => xs.getD i d) = xs := by
  induction xs with
  | nil => simp
  | cons x xs ih =>
      rw [List.length_cons, List.range_succ_eq_map, List.map_cons, List.map_map]
      simp only [Function.comp_def, Nat.succ_eq_add_one, List.getD_cons_zero,
        List.getD_cons_succ]
      rw [ih]

/-- Entry k of a permuted sequence is the source entry at position π k. -/
theorem applyPerm_getD {α : Type} (π : List ℕ) (xs : List α) (d : α)
    (k : ℕ) (hk : k < π.length) :
    (applyPerm π xs d).getD k d = xs.getD (π.getD k 0) d := by
  have h1 : π[k]? = some π[k] := List.getElem?_eq_getElem hk
  simp [applyPerm, List.getD_eq_getElem?_getD, List.getElem?_map, h1]

/-- Claim C3: on a well-formed table the DataPreparer returns features,
labels and ids of equal length, obtained by applying the one drawn
permutation identically to all three, so per-index correspondence is
preserved and the multiset of labels is unchanged. -/
theorem getDatasetValues_shuffle (t : Table) (π : List ℕ) (j : ℕ)
    (X : List (List String)) (y Id : List String)
    (hj : colIdx t "Tag" = some j)
    (hπ : π.Perm (List.range t.rows.length))
    (hres : getDatasetValues t π = .ok (X, y, Id)) :
    X.length = t.rows.length ∧ y.length = t.rows.length
    ∧ Id.length = t.rows.length
    ∧ (∀ k, k < t.rows.length →
        X.getD k [] = (t.rows.map (dropCol j)).getD (π.getD k 0) []
        ∧ y.getD k "" = (t.rows.map (fun r => r.getD j "")).getD (π.getD k 0) ""
        ∧ Id.getD k "" = t.index.getD (π.getD k 0) "")
    ∧ y.Perm (t.rows.map (fun r => r.getD j "")) := by
  have hπlen : π.length = t.rows.length := by
    simpa using hπ.length_eq
  rw [getDatasetValues, hj] at hres
  simp only [Except.ok.injEq, Prod.mk.injEq] at hres
  obtain ⟨hX, hy, hId⟩ := hres
  subst hX; subst hy; subst hId
  refine ⟨by simp [applyPerm, hπlen], by simp [applyPerm, hπlen],
    by simp [applyPerm, hπlen], ?_, ?_⟩
  · intro k hk
    have hk' : k < π.length := by omega
    exact ⟨applyPerm_getD π _ _ k hk', applyPerm_getD π _ _ k hk',
      applyPerm_getD π _ _ k hk'⟩
  · have hmap := hπ.map (fun i => (t.rows.map (fun r => r.getD j "")).getD i "")
    have hlen2 : (t.rows.map (fun r => r.getD j "")).length = t.rows.length := by
      simp
    have h2 : (List.range t.rows.length).map
        (fun i => (t.rows.map (fun r => r.getD j "")).getD i "")
        = t.rows.map (fun r => r.getD j "") := by
      rw [← hlen2]
      exact range_map_getD _ _
    have h3 : (List.map (fun i => (t.rows.map (fun r => r.getD j "")).getD i "")
        (List.range t.rows.length)).Perm (t.rows.map (fun r => r.getD j "")) := by
      rw [h2]
    rw [applyPerm]
    exact hmap.trans h3

/-- Claim C3 witness: a two-row table with the permutation swapping the
rows. -/
theorem getDatasetValues_shuffle_witness :
    (colIdx ⟨["Text", "Tag"], [["a", "REAL"], ["b", "FAKE"]], ["r0", "r1"]⟩ "Tag"
        = some 1
      ∧ List.Perm [1, 0] (List.range 2)
      ∧ getDatasetValues ⟨["Text", "Tag"], [["a", "REAL"], ["b", "FAKE"]],
          ["r0", "r1"]⟩ [1, 0] = .ok ([["b"], ["a"]], ["FAKE", "REAL"], ["r1", "r0"]))
    ∧ ([["b"], ["a"]] : List (List String)).length = 2
    ∧ (["FAKE", "REAL"] : List String).length = 2
    ∧ (["r1", "r0"] : List String).length = 2
    ∧ (∀ k, k < 2 →
        ([["b"], ["a"]] : List (List String)).getD k []
          = ([["a", "REAL"], ["b", "FAKE"]].map (dropCol 1)).getD
            (([1, 0] : List ℕ).getD k 0) []
        ∧ (["FAKE", "REAL"] : List String).getD k ""
          = ([["a", "REAL"], ["b", "FAKE"]].map
              (fun r => r.getD 1 "")).getD (([1, 0] : List ℕ).getD k 0) ""
        ∧ (["r1", "r0"] : List String).getD k ""
          = (["r0", "r1"] : List String).getD (([1, 0] : List ℕ).getD k 0) "")
    ∧ List.Perm ["FAKE", "REAL"]
        ([["a", "REAL"], ["b", "FAKE"]].map (fun r => r.getD 1 "")) := by
  refine ⟨⟨by decide, by decide, by rfl⟩, ?_⟩
  have h := getDatasetValues_shuffle
    ⟨["Text", "Tag"], [["a", "REAL"], ["b", "FAKE"]], ["r0", "r1"]⟩
    [1, 0] 1 [["b"], ["a"]] ["FAKE", "REAL"] ["r1", "r0"]
    (by decide) (by decide) (by rfl)
  simpa using h

/-- Boundaries produced by the slice computation never exceed the dataset
size. -/
theorem sliceBoundsNat_le (N lc b : ℕ) (hb : b ∈ sliceBoundsNat N lc) :
    b ≤ N := by
  simp only [sliceBoundsNat, List.mem_map, List.mem_range] at hb
  obtain ⟨i, hi, rfl⟩ := hb
  have hlc : 0 < lc := by omega
  have h1 : (i + 1) * N ≤ lc * N := Nat.mul_le_mul_right N (by omega)
  have h2 : ((i + 1) * N) / lc ≤ (lc * N) / lc := Nat.div_le_div_right h1
  rwa [Nat.mul_div_cancel_left _ hlc] at h2

/-- Deficiency of the stratified splitter spelled out: every class
occurring in the labels has fewer members than the number of splits. -/
theorem stratifiedDeficient_iff (y : List String) (cv : ℕ) :
    stratifiedDeficient y cv = true ↔ ∀ c ∈ y, y.count c < cv := by
  simp [stratifiedDeficient, List.all_eq_true, List.mem_dedup]

/-- Claim C6 counterexample: a slice of eight records with four members
of each class, reachable as the full slice at lc = 1; its length is not
below the fold count 5, yet the stratified fold construction raises the
insufficient-data ValueError, so the error is not raised only when the
slice length is below 5 and prediction does not proceed on every slice
of length at least 5. -/
theorem crossValPredict_length_iff_counterexample :
    (8 ∈ sliceBounds (["REAL", "FAKE", "REAL", "FAKE", "REAL", "FAKE",
        "REAL", "FAKE"] : List String).length 1)
    ∧ crossValPredict (fun _ y => y)
        (([["a"], ["b"], ["c"], ["d"], ["e"], ["f"], ["g"], ["h"]] :
          List (List String)).take 8)
        ((["REAL", "FAKE", "REAL", "FAKE", "REAL", "FAKE", "REAL", "FAKE"] :
          List String).take 8) 5
      = .error .insufficientData
    ∧ ¬ (8 < 5) := by
  refine ⟨by decide, by rfl, by decide⟩

/-- Claim C6 (amended): on every slice boundary the evaluator processes,
the cross-validated prediction with the fixed fold count 5 raises the
insufficient-data ValueError exactly when every class occurring in the
slice has fewer than 5 members (which subsumes every slice of length
below 5); when some class has at least 5 members, prediction on that
slice proceeds. -/
theorem crossValPredict_stratified_iff
    (model : List (List String) → List String → List String)
    (X : List (List String)) (y : List String) (lc : ℤ) (b : ℕ)
    (_hb : b ∈ sliceBounds y.length lc) :
    (crossValPredict model (X.take b) (y.take b) 5 = .error .insufficientData
      ↔ ∀ c ∈ y.take b, (y.take b).count c < 5)
    ∧ ((∃ c ∈ y.take b, 5 ≤ (y.take b).count c) →
        crossValPredict model (X.take b) (y.take b) 5
          = .ok (model (X.take b) (y.take b))) := by
  constructor
  · rw [crossValPredict]
    by_cases h1 : (y.take b).length < 5
    · rw [if_pos h1]
      refine iff_of_true rfl ?_
      intro c hc
      exact lt_of_le_of_lt (List.count_le_length c (y.take b)) h1
    · rw [if_neg h1]
      by_cases h2 : stratifiedDeficient (y.take b) 5 = true
      · rw [if_pos h2]
        exact iff_of_true rfl ((stratifiedDeficient_iff _ _).mp h2)
      · rw [if_neg h2]
        refine iff_of_false (by simp) ?_
        intro h
        exact h2 ((stratifiedDeficient_iff _ _).mpr h)
  · rintro ⟨c, hc, hcount⟩
    have hclen : (y.take b).count c ≤ (y.take b).length :=
      List.count_le_length c (y.take b)
    have hlen : ¬ (y.take b).length < 5 := by omega
    have hdef : ¬ stratifiedDeficient (y.take b) 5 = true := by
      intro h
      have := (stratifiedDeficient_iff _ _).mp h c hc
      omega
    rw [crossValPredict, if_neg hlen, if_neg hdef]

/-- Claim C6 witness: the full slice of a ten-record dataset with five
members of each class, on which prediction proceeds. -/
theorem crossValPredict_stratified_iff_witness :
    (10 ∈ sliceBounds (["REAL", "FAKE", "REAL", "FAKE", "REAL", "FAKE",
        "REAL", "FAKE", "REAL", "FAKE"] : List String).length 1)
    ∧ ((crossValPredict (fun _ y => y)
          (([["a"], ["b"], ["c"], ["d"], ["e"], ["f"], ["g"], ["h"], ["i"],
            ["j"]] : List (List String)).take 10)
          ((["REAL", "FAKE", "REAL", "FAKE", "REAL", "FAKE", "REAL", "FAKE",
            "REAL", "FAKE"] : List String).take 10) 5
        = .error .insufficientData
        ↔ ∀ c ∈ (["REAL", "FAKE", "REAL", "FAKE", "REAL", "FAKE", "REAL",
            "FAKE", "REAL", "FAKE"] : List String).take 10,
            ((["REAL", "FAKE", "REAL", "FAKE", "REAL", "FAKE", "REAL", "FAKE",
              "REAL", "FAKE"] : List String).take 10).count c < 5)
      ∧ ((∃ c ∈ (["REAL", "FAKE", "REAL", "FAKE", "REAL", "FAKE", "REAL",
            "FAKE", "REAL", "FAKE"] : List String).take 10,
            5 ≤ ((["REAL", "FAKE", "REAL", "FAKE", "REAL", "FAKE", "REAL",
              "FAKE", "REAL", "FAKE"] : List String).take 10).count c) →
          crossValPredict (fun _ y => y)
            (([["a"], ["b"], ["c"], ["d"], ["e"], ["f"], ["g"], ["h"], ["i"],
              ["j"]] : List (List String)).take 10)
            ((["REAL", "FAKE", "REAL", "FAKE", "REAL", "FAKE", "REAL", "FAKE",
              "REAL", "FAKE"] : List String).take 10) 5
            = .ok ((fun _ y => y)
                (([["a"], ["b"], ["c"], ["d"], ["e"], ["f"], ["g"], ["h"],
                  ["i"], ["j"]] : List (List String)).take 10)
                ((["REAL", "FAKE", "REAL", "FAKE", "REAL", "FAKE", "REAL",
                  "FAKE", "REAL", "FAKE"] : List String).take 10)))) :=
  ⟨by decide, crossValPredict_stratified_iff (fun _ y => y)
    [["a"], ["b"], ["c"], ["d"], ["e"], ["f"], ["g"], ["h"], ["i"], ["j"]]
    ["REAL", "FAKE", "REAL", "FAKE", "REAL", "FAKE", "REAL", "FAKE", "REAL",
      "FAKE"] 1 10 (by decide)⟩

/-- Claim C8: when the designated label column Tag is absent, the
DataPreparer fails with the missing-column error, and the per-dataset
pipeline fails with that same error before any prediction is computed. -/
theorem getDatasetValues_missingColumn (t : Table) (π : List ℕ)
    (model : List (List String) → List String → List String) (lc : ℤ)
    (hc : colIdx t "Tag" = none) :
    getDatasetValues t π = .error .missingColumn
    ∧ runDataset t π model lc = .error .missingColumn := by
  have h1 : getDatasetValues t π = .error .missingColumn := by
    rw [getDatasetValues, hc]
  refine ⟨h1, ?_⟩
  rw [runDataset, h1]
  rfl

/-- Claim C8 witness: a one-row table without a Tag column. -/
theorem getDatasetValues_missingColumn_witness :
    colIdx ⟨["Text"], [["x"]], ["r0"]⟩ "Tag" = none
    ∧ getDatasetValues ⟨["Text"], [["x"]], ["r0"]⟩ [0]
        = .error .missingColumn
    ∧ runDataset ⟨["Text"], [["x"]], ["r0"]⟩ [0] (fun _ y => y) 1
        = .error .missingColumn :=
  ⟨by decide, getDatasetValues_missingColumn ⟨["Text"], [["x"]], ["r0"]⟩ [0]
    (fun _ y => y) 1 (by decide)⟩

/-- Filtering through an if-then-some function is mapping over the
filtered list. -/
theorem filterMap_ite_some {α β : Type} (p : α → Prop) [DecidablePred p]
    (f : α → β) (l : List α) :
    l.filterMap (fun a => if p a then some (f a) else none)
      = (l.filter (fun a => decide (p a))).map f := by
  induction l with
  | nil => rfl
  | cons x xs ih =>
      by_cases hx : p x
      · simp [List.filterMap_cons, List.filter_cons, hx, ih]
      · simp [List.filterMap_cons, List.filter_cons, hx, ih]

/-- Claim C5: the missed-record list has exactly one entry for each index
at which the final prediction differs from the true label, in index
order, each formatted as id, the words Classified as, and the predicted
label; when the final prediction agrees with the true labels everywhere
the list is empty. -/
theorem missedList_exact (Ids y p : List String)
    (hpy : p.length = y.length) (hIy : Ids.length = y.length) :
    missedList Ids y p
      = ((List.range y.length).filter
          (fun i => decide (p.getD i "" ≠ y.getD i ""))).map
          (fun i => Ids.getD i "" ++ " Classified as " ++ p.getD i "" ++ "\n")
    ∧ (p = y → missedList Ids y p = []) := by
  constructor
  · rw [missedList]
    exact filterMap_ite_some _ _ _
  · intro hpe
    subst hpe
    simp [missedList]

/-- Claim C5 witness: one disagreement at index 1 of a three-record
dataset. -/
theorem missedList_exact_witness :
    ((["REAL", "REAL", "REAL"] : List String).length
        = (["REAL", "FAKE", "REAL"] : List String).length
      ∧ (["r0", "r1", "r2"] : List String).length
        = (["REAL", "FAKE", "REAL"] : List String).length)
    ∧ (missedList ["r0", "r1", "r2"] ["REAL", "FAKE", "REAL"]
          ["REAL", "REAL", "REAL"]
        = ((List.range (["REAL", "FAKE", "REAL"] : List String).length).filter
            (fun i => decide ((["REAL", "REAL", "REAL"] : List String).getD i ""
              ≠ (["REAL", "FAKE", "REAL"] : List String).getD i ""))).map
            (fun i => (["r0", "r1", "r2"] : List String).getD i ""
              ++ " Classified as "
              ++ (["REAL", "REAL", "REAL"] : List String).getD i "" ++ "\n")
      ∧ ((["REAL", "REAL", "REAL"] : List String) = ["REAL", "FAKE", "REAL"]
          → missedList ["r0", "r1", "r2"] ["REAL", "FAKE", "REAL"]
              ["REAL", "REAL", "REAL"] = [])) :=
  ⟨⟨by decide, by decide⟩, missedList_exact ["r0", "r1", "r2"]
    ["REAL", "FAKE", "REAL"] ["REAL", "REAL", "REAL"] (by decide) (by decide)⟩

/-- Claim C4: with more than one prediction sequence, printResults emits
the learning curve, which has one entry per prediction sequence in
order, and the i-th entry is the accuracy of predicts[i] against exactly
the prefix of the true labels of the same length as predicts[i]; each
entry is a defined accuracy value. The prefix hypothesis records that the
sequences come from the evaluator, whose i-th output has the length of
the i-th slice boundary. -/
theorem learningCurve_take_aligned (real : List String)
    (predicts : List (List String))
    (hlen : 1 < predicts.length)
    (hp : ∀ i, i < predicts.length →
      (predicts.getD i []).length = ((i + 1) * real.length) / predicts.length) :
    printResultsCurve real predicts = some (learningCurve real predicts)
    ∧ (learningCurve real predicts).length = predicts.length
    ∧ ∀ i, i < predicts.length →
        (learningCurve real predicts).getD i none
          = accuracyScore (real.take (predicts.getD i []).length)
              (predicts.getD i [])
        ∧ ((learningCurve real predicts).getD i none).isSome := by
  have hslen : (sliceBoundsNat real.length predicts.length).length
      = predicts.length := by
    simp [sliceBoundsNat]
  have hcurvelen : (learningCurve real predicts).length = predicts.length := by
    simp [learningCurve, List.length_zipWith, hslen]
  refine ⟨by simp [printResultsCurve, hlen], hcurvelen, ?_⟩
  intro i hi
  have hiz : i < (learningCurve real predicts).length := by omega
  have hib : i < (sliceBoundsNat real.length predicts.length).length := by omega
  have hir : i < (List.range predicts.length).length := by simpa using hi
  have hb : (sliceBoundsNat real.length predicts.length)[i]
      = ((i + 1) * real.length) / predicts.length := by
    simp [sliceBoundsNat]
  have hd2 : predicts.getD i [] = predicts[i] := by
    rw [List.getD_eq_getElem?_getD, List.getElem?_eq_getElem hi]
    rfl
  have hgz : (learningCurve real predicts)[i]
      = accuracyScore (real.take (((i + 1) * real.length) / predicts.length))
          (predicts[i]) := by
    simp only [learningCurve, List.getElem_zipWith]
    rw [hb]
  have hd1 : (learningCurve real predicts).getD i none
      = (learningCurve real predicts)[i] := by
    rw [List.getD_eq_getElem?_getD, List.getElem?_eq_getElem hiz]
    rfl
  have hpi : (predicts[i]).length
      = ((i + 1) * real.length) / predicts.length := by
    have h := hp i hi
    rwa [hd2] at h
  have hble : ((i + 1) * real.length) / predicts.length ≤ real.length := by
    have h1 : (i + 1) * real.length ≤ predicts.length * real.length :=
      Nat.mul_le_mul_right _ (by omega)
    have h2 : ((i + 1) * real.length) / predicts.length
        ≤ (predicts.length * real.length) / predicts.length :=
      Nat.div_le_div_right h1
    rwa [Nat.mul_div_cancel_left _ (by omega : 0 < predicts.length)] at h2
  have htake : (real.take (((i + 1) * real.length) / predicts.length)).length
      = ((i + 1) * real.length) / predicts.length := by
    simp only [List.length_take]
    omega
  constructor
  · rw [hd1, hgz, hd2, hpi]
  · rw [hd1, hgz, accuracyScore, if_pos (by rw [htake, hpi])]
    rfl

/-- Claim C4 witness: two prediction sequences over a four-record dataset,
with lengths two and four. -/
theorem learningCurve_take_aligned_witness :
    (1 < ([["R", "F"], ["R", "R", "F", "F"]] : List (List String)).length
      ∧ (∀ i, i < ([["R", "F"], ["R", "R", "F", "F"]] : List (List String)).length →
          (([["R", "F"], ["R", "R", "F", "F"]] : List (List String)).getD i []).length
            = ((i + 1) * (["R", "F", "R", "F"] : List String).length)
              / ([["R", "F"], ["R", "R", "F", "F"]] : List (List String)).length))
    ∧ (printResultsCurve ["R", "F", "R", "F"] [["R", "F"], ["R", "R", "F", "F"]]
        = some (learningCurve ["R", "F", "R", "F"] [["R", "F"], ["R", "R", "F", "F"]])
      ∧ (learningCurve ["R", "F", "R", "F"]
          [["R", "F"], ["R", "R", "F", "F"]]).length
        = ([["R", "F"], ["R", "R", "F", "F"]] : List (List String)).length
      ∧ ∀ i, i < ([["R", "F"], ["R", "R", "F", "F"]] : List (List String)).length →
          (learningCurve ["R", "F", "R", "F"]
              [["R", "F"], ["R", "R", "F", "F"]]).getD i none
            = accuracyScore
                ((["R", "F", "R", "F"] : List String).take
                  (([["R", "F"], ["R", "R", "F", "F"]] :
                    List (List String)).getD i []).length)
                (([["R", "F"], ["R", "R", "F", "F"]] : List (List String)).getD i [])
          ∧ ((learningCurve ["R", "F", "R", "F"]
              [["R", "F"], ["R", "R", "F", "F"]]).getD i none).isSome) :=
  ⟨⟨by decide, by decide⟩, learningCurve_take_aligned ["R", "F", "R", "F"]
    [["R", "F"], ["R", "R", "F", "F"]] (by decide) (by decide)⟩

/-- Membership in an insertion is membership in the inserted element or
the original list. -/
theorem mem_insertStr (s a : String) (l : List String) :
    a ∈ insertStr s l ↔ a = s ∨ a ∈ l := by
  induction l with
  | nil => simp [insertStr]
  | cons x xs ih =>
      rw [insertStr]
      by_cases hsx : strLt s x = true
      · rw [if_pos hsx]
        simp
      · rw [if_neg hsx]
        simp only [List.mem_cons, ih]
        tauto

/-- Sorting does not change membership. -/
theorem mem_sortStr (a : String) (l : List String) :
    a ∈ sortStr l ↔ a ∈ l := by
  induction l with
  | nil => simp [sortStr]
  | cons x xs ih =>
      rw [sortStr, mem_insertStr]
      simp [ih]

/-- Length of the flattened label-by-label grid is the square of the
number of labels. -/
theorem length_ravelGrid {α : Type} (l1 l2 : List α) (g : α → α → ℕ) :
    ((l1.map (fun a => l2.map (g a))).flatten).length
      = l1.length * l2.length := by
  induction l1 with
  | nil => simp
  | cons x xs ih =>
      simp only [List.map_cons, List.flatten_cons, List.length_append,
        List.length_map, List.length_cons, ih]
      ring

/-- Counting the four label combinations of a binary pair list accounts
for every element exactly once. -/
theorem countP_pair_partition (a b : String) (hab : a ≠ b)
    (l : List (String × String))
    (h : ∀ x ∈ l, (x.1 = a ∨ x.1 = b) ∧ (x.2 = a ∨ x.2 = b)) :
    l.countP (fun x => decide (x.1 = a ∧ x.2 = a))
    + l.countP (fun x => decide (x.1 = a ∧ x.2 = b))
    + l.countP (fun x => decide (x.1 = b ∧ x.2 = a))
    + l.countP (fun x => decide (x.1 = b ∧ x.2 = b)) = l.length := by
  induction l with
  | nil => simp
  | cons x xs ih =>
      have hx := h x (List.mem_cons_self x xs)
      have ih' := ih (fun z hz => h z (List.mem_cons_of_mem x hz))
      have hba : b ≠ a := Ne.symm hab
      rcases hx with ⟨h1 | h1, h2 | h2⟩ <;>
        · simp [List.countP_cons, h1, h2, hab, hba] at ih' ⊢
          omega

/-- Unpacking into four counts succeeds exactly on lists of length four. -/
theorem unpack4_isSome (l : List ℕ) : (unpack4 l).isSome ↔ l.length = 4 := by
  rcases l with _ | ⟨a, _ | ⟨b, _ | ⟨c, _ | ⟨d, _ | ⟨e, tl⟩⟩⟩⟩⟩ <;>
    simp [unpack4]

/-- Square roots of four among the naturals. -/
theorem mul_self_eq_four {k : ℕ} (h : k * k = 4) : k = 2 := by
  rcases Nat.lt_or_ge k 3 with h3 | h3
  · interval_cases k <;> omega
  · exfalso
    have h9 : 9 ≤ k * k := Nat.mul_le_mul h3 h3
    omega

/-- Claim C7: with binary labels in which both classes occur, printResults
computes its confusion matrix from the last prediction sequence only, the
first printed row is (tp, fp) labeled a = REAL and the second is
(fn, tn) labeled b = FAKE, where tp counts (true REAL, predicted REAL),
fp counts (true FAKE, predicted REAL), fn counts (true REAL, predicted
FAKE) and tn counts (true FAKE, predicted FAKE); the four counts sum to
the length of the last prediction sequence. -/
theorem printResultsCM_last (real : List String) (predicts : List (List String))
    (_hne : predicts ≠ [])
    (hlab : cmLabels real (predicts.getLastD []) = ["FAKE", "REAL"])
    (hlen : real.length = (predicts.getLastD []).length) :
    printResultsCM real predicts
      = some ((cmCount real (predicts.getLastD []) "REAL" "REAL",
               cmCount real (predicts.getLastD []) "FAKE" "REAL"),
              (cmCount real (predicts.getLastD []) "REAL" "FAKE",
               cmCount real (predicts.getLastD []) "FAKE" "FAKE"))
    ∧ cmCount real (predicts.getLastD []) "REAL" "REAL"
      + cmCount real (predicts.getLastD []) "FAKE" "REAL"
      + cmCount real (predicts.getLastD []) "REAL" "FAKE"
      + cmCount real (predicts.getLastD []) "FAKE" "FAKE"
      = (predicts.getLastD []).length := by
  have hravel : confusionRavel real (predicts.getLastD [])
      = some [cmCount real (predicts.getLastD []) "FAKE" "FAKE",
              cmCount real (predicts.getLastD []) "FAKE" "REAL",
              cmCount real (predicts.getLastD []) "REAL" "FAKE",
              cmCount real (predicts.getLastD []) "REAL" "REAL"] := by
    rw [confusionRavel, if_pos hlen, hlab]
    rfl
  have hin : ∀ z, z ∈ real ++ predicts.getLastD [] → z = "FAKE" ∨ z = "REAL" := by
    intro z hz
    have hz2 : z ∈ cmLabels real (predicts.getLastD []) := by
      rw [cmLabels, mem_sortStr, List.mem_dedup]
      exact hz
    rw [hlab] at hz2
    simpa using hz2
  have hmem : ∀ x ∈ real.zip (predicts.getLastD []),
      (x.1 = "FAKE" ∨ x.1 = "REAL") ∧ (x.2 = "FAKE" ∨ x.2 = "REAL") := by
    intro x hx
    have hx12 := List.of_mem_zip hx
    exact ⟨hin _ (List.mem_append_left _ hx12.1),
      hin _ (List.mem_append_right _ hx12.2)⟩
  have hc := countP_pair_partition "FAKE" "REAL" (by decide)
    (real.zip (predicts.getLastD [])) hmem
  have hzlen : (real.zip (predicts.getLastD [])).length
      = (predicts.getLastD []).length := by
    rw [List.length_zip, hlen]
    omega
  constructor
  · rw [printResultsCM, hravel]
    rfl
  · simp only [cmCount]
    omega

/-- Claim C7 witness: three records, two classes, one prediction
sequence. -/
theorem printResultsCM_last_witness :
    (([["REAL", "REAL", "FAKE"]] : List (List String)) ≠ []
      ∧ cmLabels ["REAL", "FAKE", "REAL"]
          (([["REAL", "REAL", "FAKE"]] : List (List String)).getLastD [])
        = ["FAKE", "REAL"]
      ∧ (["REAL", "FAKE", "REAL"] : List String).length
        = (([["REAL", "REAL", "FAKE"]] : List (List String)).getLastD []).length)
    ∧ (printResultsCM ["REAL", "FAKE", "REAL"] [["REAL", "REAL", "FAKE"]]
        = some ((cmCount ["REAL", "FAKE", "REAL"]
                  (([["REAL", "REAL", "FAKE"]] :
                    List (List String)).getLastD []) "REAL" "REAL",
                 cmCount ["REAL", "FAKE", "REAL"]
                  (([["REAL", "REAL", "FAKE"]] :
                    List (List String)).getLastD []) "FAKE" "REAL"),
                (cmCount ["REAL", "FAKE", "REAL"]
                  (([["REAL", "REAL", "FAKE"]] :
                    List (List String)).getLastD []) "REAL" "FAKE",
                 cmCount ["REAL", "FAKE", "REAL"]
                  (([["REAL", "REAL", "FAKE"]] :
                    List (List String)).getLastD []) "FAKE" "FAKE"))
      ∧ cmCount ["REAL", "FAKE", "REAL"]
          (([["REAL", "REAL", "FAKE"]] :
            List (List String)).getLastD []) "REAL" "REAL"
        + cmCount ["REAL", "FAKE", "REAL"]
          (([["REAL", "REAL", "FAKE"]] :
            List (List String)).getLastD []) "FAKE" "REAL"
        + cmCount ["REAL", "FAKE", "REAL"]
          (([["REAL", "REAL", "FAKE"]] :
            List (List String)).getLastD []) "REAL" "FAKE"
        + cmCount ["REAL", "FAKE", "REAL"]
          (([["REAL", "REAL", "FAKE"]] :
            List (List String)).getLastD []) "FAKE" "FAKE"
        = (([["REAL", "REAL", "FAKE"]] :
            List (List String)).getLastD []).length) :=
  ⟨⟨by decide, by decide, by decide⟩, printResultsCM_last
    ["REAL", "FAKE", "REAL"] [["REAL", "REAL", "FAKE"]]
    (by decide) (by decide) (by decide)⟩

/-- Claim C10: the reporter's confusion-matrix step succeeds exactly when
the union of distinct labels in the true labels and the last prediction
sequence has two elements; in particular with a single class the
four-way unpacking fails and no matrix is produced. -/
theorem printResultsCM_binary_only (real : List String)
    (predicts : List (List String))
    (_hne : predicts ≠ [])
    (hlen : real.length = (predicts.getLastD []).length) :
    (printResultsCM real predicts).isSome
      ↔ (cmLabels real (predicts.getLastD [])).length = 2 := by
  have hravel : confusionRavel real (predicts.getLastD [])
      = some (((cmLabels real (predicts.getLastD [])).map
          (fun a => (cmLabels real (predicts.getLastD [])).map
            (fun b => cmCount real (predicts.getLastD []) a b))).flatten) := by
    rw [confusionRavel, if_pos hlen]
  rw [printResultsCM, hravel]
  simp only [Option.some_bind, Option.isSome_map']
  rw [unpack4_isSome, length_ravelGrid]
  constructor
  · exact mul_self_eq_four
  · intro h
    rw [h]

/-- Claim C10 witness: a single-class dataset, on which the matrix step
fails, matching the claim's only-one-class scenario. -/
theorem printResultsCM_binary_only_witness :
    (([["REAL", "REAL"]] : List (List String)) ≠ []
      ∧ (["REAL", "REAL"] : List String).length
        = (([["REAL", "REAL"]] : List (List String)).getLastD []).length)
    ∧ ((printResultsCM ["REAL", "REAL"] [["REAL", "REAL"]]).isSome
      ↔ (cmLabels ["REAL", "REAL"]
          (([["REAL", "REAL"]] : List (List String)).getLastD [])).length = 2) :=
  ⟨⟨by decide, by decide⟩, printResultsCM_binary_only
    ["REAL", "REAL"] [["REAL", "REAL"]] (by decide) (by decide)⟩

end FakeNilc
